import Mathlib

/-!
Shallow embedding of `tap/tap.py` (typed-argument-parser), the
type-resolution and argument-synthesis engine of the `Tap` class.

Python values relevant to the claims are modelled by `Prim`/`PyVal`;
annotations by `Ann` (the supported `str`/`int`/`bool` primitive, optional,
list, set and tuple shapes; `float` carries no claim and is omitted from the
element universe, which restricts only which annotations are modelled, not
the branch logic applied to a modelled annotation); the kwargs-synthesis of
`Tap._add_argument` by `addArgumentAuto`; the argparse backend for a single
synthesized argument by `runField`; the post-parse set/tuple conversion of
`Tap.parse_args` by `postProcess`; the breadth-first hierarchy merge of
`Tap._get_from_self_and_super` by `bfsAux`; and the instance-state
operations `as_dict` / `from_dict` / `_log_all` by `asDict` / `fromDict` /
`exportRecord` over `TapState`.
-/

namespace Tap

/-- A primitive Python value: the coercion targets of the modelled shapes. -/
inductive Prim where
  | str (s : String)
  | int (n : Int)
  | bool (b : Bool)
deriving DecidableEq, Repr

/-- A Python value as bound on a `Tap` instance: a primitive, `None`, a
list/tuple/set of primitives (collection arguments hold coerced primitives),
or a string-valued dict (the shape of `get_reproducibility_info()`). -/
inductive PyVal where
  | prim (p : Prim)
  | pynone
  | list (xs : List Prim)
  | tuple (xs : List Prim)
  | set (xs : List Prim)
  | dict (kvs : List (String × String))
deriving DecidableEq, Repr

/-- Python truthiness (`not kwargs["default"]` on line 202 of `tap.py`). -/
def pyTruthy : PyVal → Bool
  | .prim (.str s) => !s.isEmpty
  | .prim (.int n) => n ≠ 0
  | .prim (.bool b) => b
  | .pynone => false
  | .list xs => !xs.isEmpty
  | .tuple xs => !xs.isEmpty
  | .set xs => !xs.isEmpty
  | .dict kvs => !kvs.isEmpty

/-- Python `==` on modelled values: sets compare by membership (order and
multiplicity are irrelevant), everything else structurally. -/
def pyEq : PyVal → PyVal → Bool
  | .set xs, .set ys => xs.all (fun p => p ∈ ys) && ys.all (fun p => p ∈ xs)
  | a, b => a == b

/-- Element types of the supported boxed shapes (`float` carries no claim
and is left out of the modelled universe). -/
inductive BaseTy where
  | str
  | int
  | bool
deriving DecidableEq, Repr

/-- A modelled type annotation.  `optionalB none` is bare `Optional`,
`list none` bare `List`, etc.; `tupleBare` is bare `Tuple`;
`tupleFixed` is `Tuple[T1, ..., Tn]`, `tupleVariadic` is `Tuple[T, ...]`;
`other` stands for any annotation outside the supported shapes (e.g. a
custom class), identified by a name. -/
inductive Ann where
  | base (b : BaseTy)
  | optionalB (b : Option BaseTy)
  | list (b : Option BaseTy)
  | set (b : Option BaseTy)
  | tupleBare
  | tupleFixed (ts : List BaseTy)
  | tupleVariadic (t : BaseTy)
  | other (name : String)
deriving DecidableEq, Repr

/-- Membership in `SUPPORTED_DEFAULT_TYPES` (lines 29-37): base, optional,
list, set types and bare `Tuple`.  Parametrized tuples are not in the set;
they are handled by the earlier `get_origin(var_type) in (Tuple, tuple)`
branch and never reach this test. -/
def isSupportedDefaultType : Ann → Bool
  | .base _ => true
  | .optionalB _ => true
  | .list _ => true
  | .set _ => true
  | .tupleBare => true
  | .tupleFixed _ => false
  | .tupleVariadic _ => false
  | .other _ => false

/-- Membership in `SUPPORTED_DEFAULT_BOXED_TYPES` (line 34): optional,
list, set types and bare `Tuple`. -/
def isBoxedType : Ann → Bool
  | .optionalB _ => true
  | .list _ => true
  | .set _ => true
  | .tupleBare => true
  | _ => false

/-- Membership in `SUPPORTED_DEFAULT_COLLECTION_TYPES` (line 33): list and
set types and bare `Tuple`. -/
def isCollectionType : Ann → Bool
  | .list _ => true
  | .set _ => true
  | .tupleBare => true
  | _ => false

/-- The boxed element type per lines 184-190: `get_args(var_type)[0]`,
defaulting to `str` when the box is unparametrized (`len(arg_types) == 0 or
arg_types[0] == EMPTY_TYPE`). -/
def boxedElem : Ann → BaseTy
  | .optionalB (some b) => b
  | .list (some b) => b
  | .set (some b) => b
  | _ => .str

/-- `get_origin(annotation) in (Set, set)` (line 297). -/
def originIsSet : Ann → Bool
  | .set _ => true
  | _ => false

/-- `get_origin(annotation) in (Tuple, tuple)` (line 299). -/
def originIsTuple : Ann → Bool
  | .tupleBare => true
  | .tupleFixed _ => true
  | .tupleVariadic _ => true
  | _ => false

/-- Errors raised by the modelled operations.  Python raises `ValueError`
everywhere; the constructors record which message/site, in the spec's
vocabulary: `notYetParsed` is the `as_dict` guard message, `missingRequired`
carries the `required_args` list interpolated into the `from_dict` message,
`unsupportedType` the variable named by the `_add_argument` build error,
`attributeError` a plain Python `AttributeError` on attribute lookup,
`missingArgument` / `badToken` / `arityMismatch` the argparse-side fatal
errors. -/
inductive TapErr where
  | notYetParsed
  | missingRequired (required : List String)
  | unsupportedType (varName : String)
  | attributeError
  | missingArgument
  | badToken (tok : String)
  | arityMismatch
deriving DecidableEq, Repr

/-- Decidable equality of fallible results, for evaluating concrete
runs. -/
instance {ε α : Type} [DecidableEq ε] [DecidableEq α] :
    DecidableEq (Except ε α) := fun x y =>
  match x, y with
  | .ok a, .ok b =>
    if h : a = b then .isTrue (by rw [h])
    else .isFalse (fun hc => h (Except.ok.inj hc))
  | .error e, .error f =>
    if h : e = f then .isTrue (by rw [h])
    else .isFalse (fun hc => h (Except.error.inj hc))
  | .ok _, .error _ => .isFalse (fun hc => Except.noConfusion hc)
  | .error _, .ok _ => .isFalse (fun hc => Except.noConfusion hc)

/-- ASCII lowercasing of one character, as Python's `str.lower` acts on the
canonical boolean spellings. -/
def lowerChar (c : Char) : Char :=
  if 'A' ≤ c ∧ c ≤ 'Z' then Char.ofNat (c.toNat + 32) else c

/-- ASCII lowercasing of a token. -/
def lowerStr (s : String) : String := ⟨s.data.map lowerChar⟩

/-- Modelled from the spec: `boolean_type` from `tap/utils.py` (absent from
`src/`): the dedicated string-to-bool coercion accepts only the canonical
case-insensitive spellings "true" and "false" and fails on anything else. -/
def booleanType (tok : String) : Except TapErr Bool :=
  if lowerStr tok = "true" then .ok true
  else if lowerStr tok = "false" then .ok false
  else .error (.badToken tok)

/-- A decimal digit's value. -/
def digitVal (c : Char) : Option Nat :=
  if '0' ≤ c ∧ c ≤ '9' then some (c.toNat - '0'.toNat) else none

/-- Decimal digits folded into a number, failing on any non-digit. -/
def parseNatChars (acc : Nat) : List Char → Option Nat
  | [] => some acc
  | c :: rest =>
    match digitVal c with
    | some dv => parseNatChars (acc * 10 + dv) rest
    | none => none

/-- Python's `int` builtin on a canonical decimal token: an optional sign
followed by at least one digit; anything else raises `ValueError`. -/
def parseIntStr (s : String) : Option Int :=
  match s.data with
  | [] => none
  | '-' :: rest =>
    match rest with
    | [] => none
    | _ => (parseNatChars 0 rest).map (fun n => -(n : Int))
  | '+' :: rest =>
    match rest with
    | [] => none
    | _ => (parseNatChars 0 rest).map (fun n => (n : Int))
  | ds => (parseNatChars 0 ds).map (fun n => (n : Int))

/-- Coercion of one token through a primitive type: Python's `str`, `int`
and (via `boolean_type`, which replaces `bool` inside every boxed shape and
in explicit-bool mode) boolean coercion.  `int` on a non-integer token is a
`ValueError`, fatal inside argparse. -/
def coercePrim : BaseTy → String → Except TapErr Prim
  | .str, tok => .ok (.str tok)
  | .int, tok =>
    match parseIntStr tok with
    | some n => .ok (.int n)
    | none => .error (.badToken tok)
  | .bool, tok => (booleanType tok).map .bool

/-- The coercion function synthesized into `kwargs["type"]`: a primitive
coercion, `boolean_type`, or a `TupleTypeEnforcer` over fixed element types
or a single cycled element type (lines 154-161). -/
inductive Coerce where
  | prim (b : BaseTy)
  | booleanTy
  | tupleEnforcer (ts : List BaseTy)
  | tupleCycle (t : BaseTy)
deriving DecidableEq, Repr

/-- The synthesized `kwargs["nargs"]`: `"*"` or an exact count. -/
inductive Nargs where
  | star
  | exact (k : Nat)
deriving DecidableEq, Repr

/-- The synthesized `kwargs["action"]` for implicit booleans. -/
inductive BoolAction where
  | storeTrue
  | storeFalse
deriving DecidableEq, Repr

/-- The kwargs that `_add_argument` hands to
`ArgumentParser.add_argument`, restricted to the fields the claims
observe. -/
structure ArgSpec where
  required : Bool
  dflt : Option PyVal
  action : Option BoolAction
  coerce : Option Coerce
  nargs : Option Nargs
  choices : Option (List Prim)
deriving DecidableEq, Repr

/-- `Tap._add_argument` (lines 84-206) on the automatic registration path
taken by `_add_arguments` for a class variable: the flag is `--varName`
(an option argument) and the buffered kwargs carry no `required`, no
`default`, no `action` and no `nargs`; `userType` says whether the user
supplied an explicit `type` kwarg (in which case the whole
`if "type" not in kwargs` block, lines 136-204, is skipped except the
final bool/type dispatch, which also keys on the absence of `type`).

Line-by-line: `kwargs["default"]` is the class value when
`hasattr(self, variable)` (lines 103-104); `kwargs["required"]` is
`not hasattr(self, variable)` for every option argument other than `help`
(lines 107-108); the type dispatch follows lines 136-204.  The literal
branches (lines 138-144, 163-169) are vacuous on the modelled annotation
universe, which contains no `Literal` types. -/
def addArgumentAuto (explicitBool : Bool) (varName : String)
    (classDefault : Option PyVal) (ann : Option Ann) (userType : Bool) :
    Except TapErr ArgSpec :=
  -- hasattr(self, variable): the class declares a default value
  let hasDefault := classDefault.isSome
  let dflt : Option PyVal := classDefault
  let required : Bool := if varName = "help" then false else !hasDefault
  match ann with
  | none => .ok ⟨required, dflt, none, none, none, none⟩
  | some ann =>
    if userType then
      -- user-supplied coercion: lines 136-204 are not entered
      .ok ⟨required, dflt, none, none, none, none⟩
    else
      match ann with
      | .tupleFixed ts =>
        -- lines 146-161, fixed-arity branch: nargs = len(types)
        .ok ⟨required, dflt, none, some (.tupleEnforcer ts),
             some (.exact ts.length), none⟩
      | .tupleVariadic t =>
        -- lines 154-157, Tuple[T, ...]: cycle the element type, nargs "*"
        .ok ⟨required, dflt, none, some (.tupleCycle t), some .star, none⟩
      | _ =>
        if !isSupportedDefaultType ann then
          -- lines 170-176: build-time ValueError telling the caller to
          -- add the argument explicitly with a coercion function
          .error (.unsupportedType varName)
        else
          if isBoxedType ann then
            -- lines 178-194: boxed shapes
            let nargs : Option Nargs :=
              if isCollectionType ann then some .star else none
            let e := boxedElem ann
            let c : Coerce := if e = .bool then .booleanTy else .prim e
            .ok ⟨required, dflt, none, some c, nargs, none⟩
          else
            match ann with
            | .base .bool =>
              -- lines 197-202
              if explicitBool then
                .ok ⟨required, dflt, none, some .booleanTy, none,
                     some [.bool true, .bool false]⟩
              else
                let act : BoolAction :=
                  if required || !pyTruthy (dflt.getD .pynone)
                  then .storeTrue else .storeFalse
                .ok ⟨required, dflt, some act, none, none, none⟩
            | .base b => .ok ⟨required, dflt, none, some (.prim b), none, none⟩
            | _ => .ok ⟨required, dflt, none, none, none, none⟩

/-- One token coerced at position `i` of the supplied sequence.  For a
`TupleTypeEnforcer` (modelled from the spec, `tap/utils.py` being absent
from `src/`: position `i`'s raw token is coerced through element type `i`,
and the `Tuple[T, ...]` variant cycles the single element type), the
position selects the element type. -/
def coerceAt : Coerce → Nat → String → Except TapErr Prim
  | .prim b, _, tok => coercePrim b tok
  | .booleanTy, _, tok => (booleanType tok).map .bool
  | .tupleEnforcer ts, i, tok =>
    match ts.get? i with
    | some b => coercePrim b tok
    | none => .error .arityMismatch
  | .tupleCycle t, _, tok => coercePrim t tok

/-- argparse's post-coercion `choices` check on a parsed value. -/
def checkChoices (choices : Option (List Prim)) (v : PyVal) :
    Except TapErr PyVal :=
  match choices with
  | none => .ok v
  | some ch =>
    match v with
    | .prim p => if p ∈ ch then .ok v else .error .arityMismatch
    | .list xs => if xs.all (fun p => p ∈ ch) then .ok v else .error .arityMismatch
    | _ => .ok v

/-- Positional coercion of a token sequence, left to right starting at
position `i`; the first failure aborts (argparse is fatal on the first bad
token). -/
def mapCoerce (c : Coerce) : Nat → List String → Except TapErr (List Prim)
  | _, [] => .ok []
  | i, t :: rest =>
    match coerceAt c i t, mapCoerce c (i + 1) rest with
    | .ok p, .ok ps => .ok (p :: ps)
    | .error e, _ => .error e
    | _, .error e => .error e

/-- The argparse backend on one synthesized argument: `supplied = none`
means the flag is absent from the token list (a required flag then aborts
parsing; otherwise the default is bound, `None` when no default was set);
`supplied = some toks` means the flag is present followed by `toks`.
`store_true` / `store_false` bind their constant; a typed argument coerces
one token (no `nargs`), every token (`nargs="*"`), or exactly `k` tokens
(`nargs=k`), then passes the `choices` check.  An argument with neither
action nor type keeps raw token strings (argparse's identity default). -/
def runField (spec : ArgSpec) (supplied : Option (List String)) :
    Except TapErr PyVal :=
  match supplied with
  | none =>
    if spec.required then .error .missingArgument
    else .ok (spec.dflt.getD .pynone)
  | some toks =>
    match spec.action with
    | some .storeTrue => .ok (.prim (.bool true))
    | some .storeFalse => .ok (.prim (.bool false))
    | none =>
      let c := spec.coerce.getD (.prim .str)
      match spec.nargs with
      | none =>
        match toks with
        | [t] =>
          match coerceAt c 0 t with
          | .ok p => checkChoices spec.choices (.prim p)
          | .error e => .error e
        | _ => .error .arityMismatch
      | some .star =>
        match mapCoerce c 0 toks with
        | .ok vals => checkChoices spec.choices (.list vals)
        | .error e => .error e
      | some (.exact k) =>
        if toks.length = k then
          match mapCoerce c 0 toks with
          | .ok vals => checkChoices spec.choices (.list vals)
          | .error e => .error e
        else .error .arityMismatch

/-- The list-to-set / list-to-tuple conversion of `Tap.parse_args`
(lines 292-303): keyed on `get_origin` of the annotation; every other value
is bound unchanged (the deep copy is invisible on immutable modelled
values).  Python's `set(...)` collapses duplicates and forgets order. -/
def postProcess (ann : Option Ann) (v : PyVal) : PyVal :=
  match ann with
  | none => v
  | some ann =>
    if originIsSet ann then
      match v with
      | .list xs => .set xs.dedup
      | .set xs => .set xs
      | w => w
    else if originIsTuple ann then
      match v with
      | .list xs => .tuple xs
      | .tuple xs => .tuple xs
      | w => w
    else v

/-- End-to-end pipeline for one automatically registered class-variable
argument: synthesize the spec (`_add_argument`), run the backend, convert
per the annotation's origin (`parse_args`). -/
def parseOneField (explicitBool : Bool) (varName : String)
    (classDefault : Option PyVal) (ann : Option Ann) (userType : Bool)
    (supplied : Option (List String)) : Except TapErr PyVal :=
  match addArgumentAuto explicitBool varName classDefault ann userType with
  | .error e => .error e
  | .ok spec =>
    match runField spec supplied with
    | .error e => .error e
    | .ok raw => .ok (postProcess ann raw)

/-- First-match association-list lookup, the observable content of a Python
dict (`d[k]` / `k in d`). -/
def lookupKey {α : Type} (k : String) : List (String × α) → Option α
  | [] => none
  | kv :: rest => if kv.1 = k then some kv.2 else lookupKey k rest

/-- Left-biased choice, the shape of Python attribute lookup (instance
dict first, then class dict). -/
def optOr {α : Type} : Option α → Option α → Option α
  | some x, _ => some x
  | none, b => b

/-- A finite class hierarchy: `n` classes, each with an ordered list of
declared bases (`__bases__`), a flag for membership in the `Tap` family
(`issubclass(c, Tap)`), and the per-class extraction result
(`extract_func(c)`), as consumed by `Tap._get_from_self_and_super`. -/
structure ClassGraph (n : Nat) where
  bases : Fin n → List (Fin n)
  isTap : Fin n → Bool
  extract : Fin n → List (String × PyVal)

/-- The first per-class loop of `_get_from_self_and_super` (lines 341-343):
each binding of the visited class's dictionary is added only when its key is
unseen, so earlier (more-subclass) values are never overridden. -/
def updateUnseen (d sup : List (String × PyVal)) : List (String × PyVal) :=
  sup.foldl (fun acc kv => if (lookupKey kv.1 acc).isNone then acc ++ [kv] else acc) d

/-- Both per-class loops (lines 341-345): the second loop re-walks
`super_dictionary.keys() - dictionary.keys()`, which the first loop has
already emptied, so it is a repeat of the first and adds nothing. -/
def mergeStep (d sup : List (String × PyVal)) : List (String × PyVal) :=
  updateUnseen (updateUnseen d sup) sup

/-- The `while len(super_classes) > 0` traversal of
`_get_from_self_and_super` (lines 330-350), with explicit fuel so that the
recursion is structural (Python's loop carries no fuel; sufficiency of the
fuel below is the termination theorem).  Returns the merged dictionary and
the order in which classes were extracted; `none` only on fuel
exhaustion. -/
def bfsAux {n : Nat} (g : ClassGraph n) :
    Nat → List (Fin n) → List (Fin n) → List (String × PyVal) →
    Option (List (String × PyVal) × List (Fin n))
  | _, [], _, d => some (d, [])
  | 0, _ :: _, _, _ => none
  | fuel + 1, c :: rest, visited, d =>
    if c ∉ visited ∧ g.isTap c = true then
      match bfsAux g fuel (rest ++ g.bases c) (c :: visited)
          (mergeStep d (g.extract c)) with
      | some (d2, order) => some (d2, c :: order)
      | none => none
    else
      bfsAux g fuel rest visited d

/-- Number of classes not yet visited. -/
def unvisCount (n : Nat) (visited : List (Fin n)) : Nat :=
  ((Finset.univ : Finset (Fin n)).filter (fun c => c ∉ visited)).card

/-- Total number of base-class edges, an upper bound on the queue growth
contributed by any one visit. -/
def basesTotal {n : Nat} (g : ClassGraph n) : Nat :=
  ((List.finRange n).map (fun c => (g.bases c).length)).sum

/-- A sufficient fuel: every iteration pops one queue entry and a visit
pushes at most `basesTotal g` new ones while consuming one unvisited
class. -/
def bfsFuel {n : Nat} (g : ClassGraph n)
    (queue visited : List (Fin n)) : Nat :=
  queue.length + unvisCount n visited * (basesTotal g + 1)

/-- `Tap._get_from_self_and_super(extract_func)` on graph `g` starting at
class `start`: the merged dictionary together with the extraction order. -/
def getFromSelfAndSuper {n : Nat} (g : ClassGraph n) (start : Fin n) :
    List (String × PyVal) × List (Fin n) :=
  (bfsAux g (bfsFuel g [start] []) [start] [] []).getD ([], [])

/-- The instance state the claims observe: the parsed flag (`self._parsed`),
the instance attribute dict (`self.__dict__`, restricted to argument
variables), the merged filtered class dict (`_get_class_dict()`: class-level
defaults), and the merged annotation names (`_get_annotations()` keys). -/
structure TapState where
  parsed : Bool
  attrs : List (String × PyVal)
  classDict : List (String × PyVal)
  anns : List String
deriving DecidableEq, Repr

/-- Python `getattr(self, v)`: instance dict first, then class dict. -/
def getattrTap (st : TapState) (v : String) : Option PyVal :=
  optOr (lookupKey v st.attrs) (lookupKey v st.classDict)

/-- Python `hasattr(self, v)`. -/
def hasattrTap (st : TapState) (v : String) : Bool :=
  (getattrTap st v).isSome

/-- Reading a field on the instance (`self.v`): plain attribute lookup,
`AttributeError` when the attribute is absent.  Nothing in `tap.py`
intercepts attribute access, so no parsed-flag check happens here. -/
def readField (st : TapState) (v : String) : Except TapErr PyVal :=
  match getattrTap st v with
  | some x => .ok x
  | none => .error .attributeError

/-- Python `setattr(self, k, x)`: overwrite-or-add in the instance dict. -/
def setAttr (attrs : List (String × PyVal)) (k : String) (x : PyVal) :
    List (String × PyVal) :=
  (k, x) :: attrs.filter (fun kv => kv.1 ≠ k)

/-- `Tap._get_argument_names` (lines 386-388): class-dict keys unioned with
annotation names. -/
def argNames (st : TapState) : List String :=
  (st.classDict.map Prod.fst ++ st.anns).dedup

/-- The dict comprehension of `as_dict` (line 398): `getattr` per name,
failing on the first absent attribute. -/
def collectVals (g : String → Option PyVal) :
    List String → Option (List (String × PyVal))
  | [] => some []
  | v :: rest =>
    match g v, collectVals g rest with
    | some x, some l => some ((v, x) :: l)
    | _, _ => none

/-- `Tap.as_dict` (lines 390-398): guarded by the parsed flag — the
`NotYetParsedError` of the spec is this `ValueError` — then one `getattr`
per argument name. -/
def asDict (st : TapState) : Except TapErr (List (String × PyVal)) :=
  if st.parsed = false then .error .notYetParsed
  else
    match collectVals (getattrTap st) (argNames st) with
    | some l => .ok l
    | none => .error .attributeError

/-- The required-and-unset annotation names computed by `from_dict`
(line 407): annotated variables with no attribute value on the instance. -/
def requiredUnset (st : TapState) : List String :=
  st.anns.filter (fun a => !hasattrTap st a)

/-- The mutation performed by a successful `from_dict` (lines 414-420):
every record entry bound in order via `setattr`, then the parsed flag
set.  The per-key `AttributeError` catch (lines 416-419) never fires on
plain attributes and is invisible here. -/
def fromDictApply (st : TapState) (d : List (String × PyVal)) : TapState :=
  { st with
    attrs := d.foldl (fun acc kv => setAttr acc kv.1 kv.2) st.attrs,
    parsed := true }

/-- `Tap.from_dict` (lines 400-420) as a state transition mirroring the
control flow: the coverage check (line 410, comparing `len(required_args)`
with `len(set(required_args) & set(args_dict.keys()))`) raises — carrying
`required_args` in the message — before any `setattr` runs, so on failure
the state returned is the entry state; on success the mutation applies and
the parsed flag is set. -/
def fromDictRun (st : TapState) (d : List (String × PyVal)) :
    TapState × Option TapErr :=
  let required := requiredUnset st
  if required.length ≠
      (required.dedup.filter (fun a => (lookupKey a d).isSome)).length then
    (st, some (.missingRequired required))
  else
    (fromDictApply st d, none)

/-- `Tap.from_dict` as a fallible operation. -/
def fromDict (st : TapState) (d : List (String × PyVal)) :
    Except TapErr TapState :=
  match fromDictRun st d with
  | (st2, none) => .ok st2
  | (_, some e) => .error e

/-- Python dict assignment `d[k] = x`: overwrite in place, else append. -/
def setKey (l : List (String × PyVal)) (k : String) (x : PyVal) :
    List (String × PyVal) :=
  if (lookupKey k l).isSome then
    l.map (fun kv => if kv.1 = k then (k, x) else kv)
  else l ++ [(k, x)]

/-- `Tap._log_all` (lines 265-273): the `as_dict` record with the
provenance block assigned under the key `"reproducibility"`; the block
itself (`get_reproducibility_info()`) is environment-dependent and passed
in as `repro`. -/
def exportRecord (st : TapState) (repro : PyVal) :
    Except TapErr (List (String × PyVal)) :=
  (asDict st).map (fun d => setKey d "reproducibility" repro)

/-- A freshly constructed, unparsed instance of the same class: same merged
class dict and annotations, empty instance attributes, parsed flag
clear. -/
def freshOf (st : TapState) : TapState :=
  ⟨false, [], st.classDict, st.anns⟩

/-- A concrete diamond hierarchy for exercising the merger: class 0 is the
leaf with bases 1 and 2, both of which share base 3; every class is in the
Tap family and every class declares `"x"` with its own index as value. -/
def diamondGraph : ClassGraph 4 where
  bases := fun c => if c = 0 then [1, 2] else if c = 3 then [] else [3]
  isTap := fun _ => true
  extract := fun c =>
    if c = 0 then [("x", .prim (.int 0))]
    else if c = 1 then [("x", .prim (.int 1)), ("y", .prim (.int 1))]
    else if c = 2 then [("x", .prim (.int 2)), ("z", .prim (.int 2))]
    else [("x", .prim (.int 3)), ("w", .prim (.int 3))]

/-- An unparsed instance of a class declaring `x: int = 5`. -/
def unparsedWithDefault : TapState :=
  ⟨false, [], [("x", .prim (.int 5))], ["x"]⟩

/-- A parsed instance of the same class, with `x` bound to 7. -/
def parsedSimple : TapState :=
  ⟨true, [("x", .prim (.int 7))], [("x", .prim (.int 5))], ["x"]⟩

/-- An unparsed instance of a class declaring three annotated fields with
no defaults (all three required and unset). -/
def threeRequired : TapState :=
  ⟨false, [], [], ["a", "b", "c"]⟩

/-- A record covering two of the three required fields. -/
def twoOfThree : List (String × PyVal) :=
  [("a", .prim (.int 1)), ("b", .prim (.int 2))]

/-- A record covering all three required fields. -/
def allOfThree : List (String × PyVal) :=
  [("a", .prim (.int 1)), ("b", .prim (.int 2)), ("c", .prim (.int 3))]

/-- A parsed instance of a class whose single field is literally named
`reproducibility` (a plain annotated string field), bound to `"x"`. -/
def reproState : TapState :=
  ⟨true, [("reproducibility", .prim (.str "x"))], [], ["reproducibility"]⟩

/-- A provenance block as built by `get_reproducibility_info()`. -/
def reproBlock : PyVal :=
  .dict [("command_line", "python run"), ("time", "now")]

@[simp]
theorem optOr_some {α : Type} (x : α) (b : Option α) : optOr (some x) b = some x := rfl

@[simp]
theorem optOr_none {α : Type} (b : Option α) : optOr none b = b := rfl

@[simp]
theorem optOr_none_right {α : Type} (a : Option α) : optOr a none = a := by
  cases a <;> rfl

theorem lookupKey_append {α : Type} (k : String) (l1 l2 : List (String × α)) :
    lookupKey k (l1 ++ l2) = optOr (lookupKey k l1) (lookupKey k l2) := by
  induction l1 with
  | nil => simp [lookupKey]
  | cons kv rest ih =>
    by_cases h : kv.1 = k
    · simp [lookupKey, h]
    · simp [lookupKey, h, ih]

theorem updateUnseen_nil (d : List (String × PyVal)) : updateUnseen d [] = d := rfl

theorem updateUnseen_cons (d : List (String × PyVal)) (kv : String × PyVal)
    (rest : List (String × PyVal)) :
    updateUnseen d (kv :: rest) =
      updateUnseen (if (lookupKey kv.1 d).isNone then d ++ [kv] else d) rest := rfl

theorem lookup_updateUnseen (sup : List (String × PyVal)) :
    ∀ (d : List (String × PyVal)) (k : String),
      lookupKey k (updateUnseen d sup) = optOr (lookupKey k d) (lookupKey k sup) := by
  induction sup with
  | nil => intro d k; simp [updateUnseen_nil, lookupKey]
  | cons kv rest ih =>
    intro d k
    rw [updateUnseen_cons]
    by_cases hd : (lookupKey kv.1 d).isNone
    · rw [if_pos hd, ih, lookupKey_append]
      by_cases hk : kv.1 = k
      · subst hk
        cases hlk : lookupKey kv.1 d with
        | none => simp [lookupKey]
        | some w => rw [hlk] at hd; simp at hd
      · cases hlk : lookupKey k d <;> simp [lookupKey, hk]
    · rw [if_neg hd, ih]
      by_cases hk : kv.1 = k
      · subst hk
        cases hlk : lookupKey kv.1 d with
        | none => rw [hlk] at hd; simp at hd
        | some w => simp [lookupKey, hlk]
      · simp [lookupKey, hk]

theorem lookup_mergeStep (d sup : List (String × PyVal)) (k : String) :
    lookupKey k (mergeStep d sup) = optOr (lookupKey k d) (lookupKey k sup) := by
  unfold mergeStep
  rw [lookup_updateUnseen, lookup_updateUnseen]
  cases lookupKey k d <;> cases lookupKey k sup <;> rfl

theorem unvisCount_cons {n : Nat} (c : Fin n) (vis : List (Fin n)) (hc : c ∉ vis) :
    unvisCount n (c :: vis) + 1 = unvisCount n vis := by
  unfold unvisCount
  have hset : ((Finset.univ : Finset (Fin n)).filter (fun x => x ∉ (c :: vis))) =
      ((Finset.univ : Finset (Fin n)).filter (fun x => x ∉ vis)).erase c := by
    ext x
    simp only [Finset.mem_filter, Finset.mem_erase, Finset.mem_univ, true_and,
      List.mem_cons, not_or]
  have hcmem : c ∈ (Finset.univ : Finset (Fin n)).filter (fun x => x ∉ vis) := by
    simp [hc]
  rw [hset, Finset.card_erase_of_mem hcmem]
  have hpos : 0 < ((Finset.univ : Finset (Fin n)).filter (fun x => x ∉ vis)).card :=
    Finset.card_pos.mpr ⟨c, hcmem⟩
  omega

theorem basesLen_le {n : Nat} (g : ClassGraph n) (c : Fin n) :
    (g.bases c).length ≤ basesTotal g := by
  unfold basesTotal
  exact List.single_le_sum (fun x _ => Nat.zero_le x) _
    (List.mem_map_of_mem _ (List.mem_finRange c))

theorem bfsAux_isSome {n : Nat} (g : ClassGraph n) :
    ∀ (fuel : Nat) (q vis : List (Fin n)) (d : List (String × PyVal)),
      bfsFuel g q vis ≤ fuel → (bfsAux g fuel q vis d).isSome := by
  intro fuel
  induction fuel with
  | zero =>
    intro q vis d hf
    cases q with
    | nil => simp [bfsAux]
    | cons c rest =>
      exfalso
      unfold bfsFuel at hf
      generalize unvisCount n vis * (basesTotal g + 1) = t at hf
      simp only [List.length_cons] at hf
      omega
  | succ fuel ih =>
    intro q vis d hf
    cases q with
    | nil => simp [bfsAux]
    | cons c rest =>
      rw [bfsAux]
      by_cases hc : c ∉ vis ∧ g.isTap c = true
      · rw [if_pos hc]
        have hL := basesLen_le g c
        have hu := unvisCount_cons c vis hc.1
        have hnew : bfsFuel g (rest ++ g.bases c) (c :: vis) ≤ fuel := by
          unfold bfsFuel at hf ⊢
          have hmul : unvisCount n vis * (basesTotal g + 1) =
              unvisCount n (c :: vis) * (basesTotal g + 1) + (basesTotal g + 1) := by
            rw [← hu]; ring
          rw [hmul] at hf
          generalize unvisCount n (c :: vis) * (basesTotal g + 1) = t at hf ⊢
          simp only [List.length_append, List.length_cons] at hf ⊢
          omega
        have hres := ih (rest ++ g.bases c) (c :: vis)
          (mergeStep d (g.extract c)) hnew
        cases hcall : bfsAux g fuel (rest ++ g.bases c) (c :: vis)
            (mergeStep d (g.extract c)) with
        | none => rw [hcall] at hres; simp at hres
        | some p => obtain ⟨d2, order⟩ := p; simp
      · rw [if_neg hc]
        apply ih
        unfold bfsFuel at hf ⊢
        generalize unvisCount n vis * (basesTotal g + 1) = t at hf ⊢
        simp only [List.length_cons] at hf ⊢
        omega

theorem bfsAux_order {n : Nat} (g : ClassGraph n) :
    ∀ (fuel : Nat) (q vis : List (Fin n)) (d d2 : List (String × PyVal))
      (order : List (Fin n)),
      bfsAux g fuel q vis d = some (d2, order) →
      order.Nodup ∧ ∀ c ∈ order, c ∉ vis ∧ g.isTap c = true := by
  intro fuel
  induction fuel with
  | zero =>
    intro q vis d d2 order h
    cases q with
    | nil =>
      simp [bfsAux] at h
      simp [h.2]
    | cons c rest => simp [bfsAux] at h
  | succ fuel ih =>
    intro q vis d d2 order h
    cases q with
    | nil =>
      simp [bfsAux] at h
      simp [h.2]
    | cons c rest =>
      rw [bfsAux] at h
      by_cases hc : c ∉ vis ∧ g.isTap c = true
      · rw [if_pos hc] at h
        cases hcall : bfsAux g fuel (rest ++ g.bases c) (c :: vis)
            (mergeStep d (g.extract c)) with
        | none => rw [hcall] at h; cases h
        | some p =>
          obtain ⟨d', ord'⟩ := p
          rw [hcall] at h
          simp only [Option.some.injEq, Prod.mk.injEq] at h
          obtain ⟨hd, hord⟩ := h
          subst hord
          obtain ⟨hnd, hmem⟩ := ih _ _ _ _ _ hcall
          refine ⟨List.nodup_cons.mpr ⟨fun hcin => (hmem c hcin).1 (List.mem_cons_self c vis), hnd⟩, ?_⟩
          intro x hx
          rcases List.mem_cons.mp hx with rfl | hx'
          · exact ⟨hc.1, hc.2⟩
          · exact ⟨fun hxv => (hmem x hx').1 (List.mem_cons_of_mem _ hxv), (hmem x hx').2⟩
      · rw [if_neg hc] at h
        exact ih _ _ _ _ _ h

theorem bfsAux_lookup_preserved {n : Nat} (g : ClassGraph n) :
    ∀ (fuel : Nat) (q vis : List (Fin n)) (d d2 : List (String × PyVal))
      (order : List (Fin n)) (k : String) (v : PyVal),
      bfsAux g fuel q vis d = some (d2, order) →
      lookupKey k d = some v → lookupKey k d2 = some v := by
  intro fuel
  induction fuel with
  | zero =>
    intro q vis d d2 order k v h hk
    cases q with
    | nil => simp [bfsAux] at h; rw [← h.1]; exact hk
    | cons c rest => simp [bfsAux] at h
  | succ fuel ih =>
    intro q vis d d2 order k v h hk
    cases q with
    | nil => simp [bfsAux] at h; rw [← h.1]; exact hk
    | cons c rest =>
      rw [bfsAux] at h
      by_cases hc : c ∉ vis ∧ g.isTap c = true
      · rw [if_pos hc] at h
        cases hcall : bfsAux g fuel (rest ++ g.bases c) (c :: vis)
            (mergeStep d (g.extract c)) with
        | none => rw [hcall] at h; cases h
        | some p =>
          obtain ⟨d', ord'⟩ := p
          rw [hcall] at h
          simp only [Option.some.injEq, Prod.mk.injEq] at h
          rw [← h.1]
          refine ih _ _ _ _ _ _ _ hcall ?_
          rw [lookup_mergeStep, hk]
          rfl
      · rw [if_neg hc] at h
        exact ih _ _ _ _ _ _ _ h hk

theorem bfsAux_first {n : Nat} (g : ClassGraph n) (fuel : Nat) (c : Fin n)
    (rest vis : List (Fin n)) (d d2 : List (String × PyVal))
    (order : List (Fin n)) (k : String) (v : PyVal)
    (h : bfsAux g fuel (c :: rest) vis d = some (d2, order))
    (hc1 : c ∉ vis) (hc2 : g.isTap c = true)
    (hd : lookupKey k d = none)
    (hv : lookupKey k (g.extract c) = some v) :
    lookupKey k d2 = some v := by
  cases fuel with
  | zero => simp [bfsAux] at h
  | succ fuel =>
    rw [bfsAux, if_pos ⟨hc1, hc2⟩] at h
    cases hcall : bfsAux g fuel (rest ++ g.bases c) (c :: vis)
        (mergeStep d (g.extract c)) with
    | none => rw [hcall] at h; cases h
    | some p =>
      obtain ⟨d', ord'⟩ := p
      rw [hcall] at h
      simp only [Option.some.injEq, Prod.mk.injEq] at h
      rw [← h.1]
      refine bfsAux_lookup_preserved g _ _ _ _ _ _ _ _ hcall ?_
      rw [lookup_mergeStep, hd, hv]
      rfl

theorem getFromSelfAndSuper_eq {n : Nat} (g : ClassGraph n) (start : Fin n) :
    bfsAux g (bfsFuel g [start] []) [start] [] [] =
      some (getFromSelfAndSuper g start) := by
  have h := bfsAux_isSome g (bfsFuel g [start] []) [start] [] [] (le_refl _)
  unfold getFromSelfAndSuper
  cases hres : bfsAux g (bfsFuel g [start] []) [start] [] [] with
  | none => rw [hres] at h; simp at h
  | some p => simp

/-- C10: the breadth-first hierarchy merge of `_get_from_self_and_super`
terminates on every finite class hierarchy — the loop, run with the stated
fuel, always reaches the empty queue — and the visited-set guard makes it
extract each class at most once: the extraction order has no duplicates. -/
theorem mergeTraversalTerminatesOnce {n : Nat} (g : ClassGraph n) (start : Fin n) :
    (bfsAux g (bfsFuel g [start] []) [start] [] []).isSome ∧
    (getFromSelfAndSuper g start).2.Nodup ∧
    ∀ c : Fin n, (getFromSelfAndSuper g start).2.count c ≤ 1 := by
  have heq := getFromSelfAndSuper_eq g start
  have hord := bfsAux_order g _ _ _ _ _ _ heq
  refine ⟨by rw [heq]; rfl, hord.1, ?_⟩
  exact List.nodup_iff_count_le_one.mp hord.1

/-- C2: in the merged field table, a name declared by the starting
(sub)class is always bound to the subclass's declaration — BFS pops the
subclass first and later (more ancestral) visits never overwrite a present
key — regardless of how ancestors at equal depth are ordered; and every
class the walk collects from satisfies the `issubclass(-, Tap)` family
test. -/
theorem subclassDeclarationWins {n : Nat} (g : ClassGraph n) (start : Fin n)
    (k : String) (v : PyVal)
    (hTap : g.isTap start = true)
    (hk : lookupKey k (g.extract start) = some v) :
    lookupKey k (getFromSelfAndSuper g start).1 = some v ∧
    ∀ c ∈ (getFromSelfAndSuper g start).2, g.isTap c = true := by
  have heq := getFromSelfAndSuper_eq g start
  constructor
  · exact bfsAux_first g _ start [] [] [] _ _ k v heq (List.not_mem_nil start) hTap rfl hk
  · intro c hc
    exact ((bfsAux_order g _ _ _ _ _ _ heq).2 c hc).2

/-- Witness for C2: on the concrete diamond hierarchy, where classes 1, 2
and 3 all redeclare `"x"`, the merged table still maps `"x"` to the leaf
class 0's value. -/
theorem subclassDeclarationWins_witness :
    lookupKey "x" (getFromSelfAndSuper diamondGraph 0).1 = some (.prim (.int 0)) ∧
    ∀ c ∈ (getFromSelfAndSuper diamondGraph 0).2, diamondGraph.isTap c = true :=
  subclassDeclarationWins diamondGraph 0 "x" (.prim (.int 0)) (by decide) (by decide)

theorem fromDictRun_eq (st : TapState) (d : List (String × PyVal)) :
    fromDictRun st d =
      if (requiredUnset st).length ≠
          ((requiredUnset st).dedup.filter (fun a => (lookupKey a d).isSome)).length then
        (st, some (.missingRequired (requiredUnset st)))
      else
        (fromDictApply st d, none) := rfl

/-- C3 counterexample: on an unparsed instance whose class declares
`x: int = 5`, reading the field returns the class default instead of
raising — attribute access in `tap.py` is not guarded by the parsed
flag. -/
theorem readBeforeParse_cex :
    readField unparsedWithDefault "x" = .ok (.prim (.int 5)) ∧
    readField unparsedWithDefault "x" ≠ .error .notYetParsed := by decide

/-- C3 (amended): `as_dict` before the parsed mark is set raises the
not-yet-parsed error, and after a successful parse it never does; but plain
field reads are not guarded by the parsed flag at all — they return the
bound or class-default value when one exists and a plain `AttributeError`
otherwise, never the not-yet-parsed error. -/
theorem notYetParsedGuard (st : TapState) (v : String) :
    (st.parsed = false → asDict st = .error .notYetParsed) ∧
    (st.parsed = true → asDict st ≠ .error .notYetParsed) ∧
    readField st v ≠ .error .notYetParsed := by
  refine ⟨fun h => by simp [asDict, h], fun h => ?_, ?_⟩
  · simp only [asDict, h]
    cases collectVals (getattrTap st) (argNames st) <;> simp
  · unfold readField
    cases getattrTap st v <;> simp

/-- Witness for C3 (amended), on concrete unparsed and parsed instances. -/
theorem notYetParsedGuard_witness :
    asDict unparsedWithDefault = .error .notYetParsed ∧
    asDict parsedSimple ≠ .error .notYetParsed ∧
    readField parsedSimple "x" ≠ .error .notYetParsed :=
  ⟨(notYetParsedGuard unparsedWithDefault "x").1 rfl,
   (notYetParsedGuard parsedSimple "x").2.1 rfl,
   (notYetParsedGuard parsedSimple "x").2.2⟩

/-- C4 counterexample: with three required-and-unset fields and a record
covering only two of them, the raised error carries the full
`required_args` list `["a", "b", "c"]`, not just the one missing field
`"c"` — the message does not name exactly the missing field(s). -/
theorem fromDictNamesAll_cex :
    fromDict threeRequired twoOfThree = .error (.missingRequired ["a", "b", "c"]) ∧
    ["a", "b", "c"] ≠ ["c"] := by decide

/-- A covered import succeeds with the setattr-fold applied: the shared
success half of the `from_dict` coverage check. -/
theorem fromDict_ok_of_covered (st : TapState) (d : List (String × PyVal))
    (hnd : st.anns.Nodup)
    (hall : ∀ a ∈ requiredUnset st, (lookupKey a d).isSome = true) :
    fromDict st d = .ok (fromDictApply st d) := by
  have hreq : (requiredUnset st).Nodup := hnd.filter _
  have hded : (requiredUnset st).dedup = requiredUnset st := List.dedup_eq_self.mpr hreq
  have hfil : (requiredUnset st).dedup.filter (fun a => (lookupKey a d).isSome) =
      requiredUnset st := by
    rw [hded]
    exact List.filter_eq_self.mpr hall
  unfold fromDict
  rw [fromDictRun_eq, hfil, if_neg (by simp)]

/-- C4 (amended): `from_dict` fails iff the record's keys do not cover
every required-and-unset field, and the error then names the complete
required-and-unset list (not merely the missing ones); when the keys do
cover them the import succeeds. -/
theorem fromDictRequiredCoverage (st : TapState) (d : List (String × PyVal))
    (hnd : st.anns.Nodup) :
    ((∀ a ∈ requiredUnset st, (lookupKey a d).isSome = true) →
        ∃ st2, fromDict st d = .ok st2) ∧
    ((¬ ∀ a ∈ requiredUnset st, (lookupKey a d).isSome = true) →
        fromDict st d = .error (.missingRequired (requiredUnset st))) := by
  have hreq : (requiredUnset st).Nodup := hnd.filter _
  have hded : (requiredUnset st).dedup = requiredUnset st := List.dedup_eq_self.mpr hreq
  constructor
  · intro hall
    exact ⟨fromDictApply st d, fromDict_ok_of_covered st d hnd hall⟩
  · intro hnot
    have hne : (requiredUnset st).length ≠
        ((requiredUnset st).dedup.filter (fun a => (lookupKey a d).isSome)).length := by
      rw [hded]
      intro hlen
      have hsub : ((requiredUnset st).filter (fun a => (lookupKey a d).isSome)).Sublist
          (requiredUnset st) := List.filter_sublist _
      have heq := hsub.eq_of_length hlen.symm
      exact hnot (List.filter_eq_self.mp heq)
    unfold fromDict
    rw [fromDictRun_eq, if_pos hne]

/-- Witness for C4 (amended): a full record imports successfully, a record
missing one field fails with the complete required list. -/
theorem fromDictRequiredCoverage_witness :
    (∃ st2, fromDict threeRequired allOfThree = .ok st2) ∧
    fromDict threeRequired twoOfThree =
      .error (.missingRequired (requiredUnset threeRequired)) :=
  ⟨(fromDictRequiredCoverage threeRequired allOfThree (by decide)).1 (by decide),
   (fromDictRequiredCoverage threeRequired twoOfThree (by decide)).2 (by decide)⟩

/-- C9: when `from_dict` fails its coverage check, the raise happens before
any attribute is bound, so the instance is returned exactly as it was — the
attributes and the parsed flag are unchanged and a subsequent `as_dict`
behaves as before the call. -/
theorem fromDictFailureAtomic (st : TapState) (d : List (String × PyVal))
    (h : (fromDictRun st d).2.isSome = true) :
    (fromDictRun st d).1 = st ∧ asDict (fromDictRun st d).1 = asDict st := by
  rw [fromDictRun_eq] at h ⊢
  by_cases hc : (requiredUnset st).length ≠
      ((requiredUnset st).dedup.filter (fun a => (lookupKey a d).isSome)).length
  · rw [if_pos hc]
    exact ⟨rfl, rfl⟩
  · rw [if_neg hc] at h
    exact absurd h (by simp)

/-- Witness for C9, on the concrete failing import of C4's input. -/
theorem fromDictFailureAtomic_witness :
    (fromDictRun threeRequired twoOfThree).1 = threeRequired ∧
    asDict (fromDictRun threeRequired twoOfThree).1 = asDict threeRequired :=
  fromDictFailureAtomic threeRequired twoOfThree (by decide)

/-- C1 counterexample: for annotation `Optional[int]` with no declared
default, the synthesized spec has `required = True` (not `False` as
claimed) — lines 107-108 key `required` purely on `hasattr` — and parsing
with no token for the field aborts with a missing-argument error instead of
binding the absent value. -/
theorem optionalRequired_cex :
    (addArgumentAuto false "x" none (some (.optionalB (some .int))) false).map
        ArgSpec.required = .ok true ∧
    parseOneField false "x" none (some (.optionalB (some .int))) false none
      = .error .missingArgument := by decide

/-- C1 (amended): on the automatic path, a field is required iff it has no
declared default, independent of the resolved shape — optional and boolean
shapes receive no exemption, so `Optional[int]` without a default is
required and fails when the token is absent. -/
theorem requiredIffNoDefault (eb : Bool) (v : String) (cd : Option PyVal)
    (ann : Option Ann) (ut : Bool) (spec : ArgSpec)
    (hv : v ≠ "help")
    (h : addArgumentAuto eb v cd ann ut = .ok spec) :
    spec.required = !cd.isSome := by
  unfold addArgumentAuto at h
  repeat' split at h
  all_goals
    first
      | (exact absurd (by assumption) hv)
      | (exact Except.noConfusion h)
      | (rw [Except.ok.injEq] at h; rw [← h])

/-- Witness for C1 (amended): a field with a default is not required, one
without is. -/
theorem requiredIffNoDefault_witness :
    (⟨false, some (.prim (.int 3)), none, some (.prim .int), none, none⟩ : ArgSpec).required
      = !(some (PyVal.prim (.int 3))).isSome ∧
    (⟨true, none, none, some (.prim .int), none, none⟩ : ArgSpec).required
      = !(none : Option PyVal).isSome :=
  ⟨requiredIffNoDefault false "x" (some (.prim (.int 3))) (some (.base .int)) false
      ⟨false, some (.prim (.int 3)), none, some (.prim .int), none, none⟩
      (by decide) (by decide),
   requiredIffNoDefault false "x" none (some (.base .int)) false
      ⟨true, none, none, some (.prim .int), none, none⟩
      (by decide) (by decide)⟩

/-- C6: for a boolean field with resolved default `True`: in implicit-flag
mode the synthesized action is `store_false`, so supplying the flag binds
`False` and omitting it binds the default `True` (toggle direction chosen
from the default); in explicit mode the token `"false"` after the flag
binds `False` and any token that is not a canonical case-insensitive
true/false spelling is a fatal coercion failure. -/
theorem boolDefaultTrueModes (v tok : String)
    (ht : lowerStr tok ≠ "true") (hf : lowerStr tok ≠ "false") :
    parseOneField false v (some (.prim (.bool true))) (some (.base .bool)) false (some [])
      = .ok (.prim (.bool false)) ∧
    parseOneField false v (some (.prim (.bool true))) (some (.base .bool)) false none
      = .ok (.prim (.bool true)) ∧
    parseOneField true v (some (.prim (.bool true))) (some (.base .bool)) false (some ["false"])
      = .ok (.prim (.bool false)) ∧
    parseOneField true v (some (.prim (.bool true))) (some (.base .bool)) false (some [tok])
      = .error (.badToken tok) := by
  have himp : addArgumentAuto false v (some (.prim (.bool true))) (some (.base .bool)) false
      = .ok ⟨false, some (.prim (.bool true)), some .storeFalse, none, none, none⟩ := by
    simp [addArgumentAuto, pyTruthy, isSupportedDefaultType, isBoxedType,
      isCollectionType, boxedElem]
  have hexp : addArgumentAuto true v (some (.prim (.bool true))) (some (.base .bool)) false
      = .ok ⟨false, some (.prim (.bool true)), none, some .booleanTy, none,
             some [.bool true, .bool false]⟩ := by
    simp [addArgumentAuto, isSupportedDefaultType, isBoxedType,
      isCollectionType, boxedElem]
  refine ⟨?_, ?_, ?_, ?_⟩
  · simp only [parseOneField, himp]; decide
  · simp only [parseOneField, himp]; decide
  · simp only [parseOneField, hexp]; decide
  · simp [parseOneField, hexp, runField, coerceAt, booleanType, Option.getD,
      Except.map, ht, hf]

/-- Witness for C6 at a concrete flag name and a concrete non-canonical
token. -/
theorem boolDefaultTrueModes_witness :
    parseOneField false "flag" (some (.prim (.bool true))) (some (.base .bool)) false (some [])
      = .ok (.prim (.bool false)) ∧
    parseOneField true "flag" (some (.prim (.bool true))) (some (.base .bool)) false
        (some ["maybe"]) = .error (.badToken "maybe") :=
  ⟨(boolDefaultTrueModes "flag" "maybe" (by decide) (by decide)).1,
   (boolDefaultTrueModes "flag" "maybe" (by decide) (by decide)).2.2.2⟩

/-- C7: an annotation matching none of the supported shapes, with no
explicit user-supplied coercion, makes `_add_argument` — and hence instance
construction, which calls it for every field — fail with the build-time
error that instructs the caller to register the argument with an explicit
coercion function; there is no silent fallback. -/
theorem unsupportedTypeBuildError (eb : Bool) (v : String) (cd : Option PyVal)
    (s : String) :
    addArgumentAuto eb v cd (some (.other s)) false
      = .error (.unsupportedType v) := rfl

/-- C5: after the backend returns raw ordered values, `parse_args` binds a
set-shaped field to the set of the raw sequence (membership-preserving,
duplicates collapsed, order insignificant up to Python set equality), a
tuple-shaped field to the ordered tuple, and a list-shaped field to the
unchanged ordered sequence; concretely, `List[int]` on tokens
`["1","2","3"]` binds `[1,2,3]` and `Set[int]` on the same tokens binds a
value set-equal to `{1,2,3}`. -/
theorem collectionConversion :
    (∀ (ann : Ann) (xs : List Prim), originIsSet ann = true →
        postProcess (some ann) (.list xs) = .set xs.dedup ∧
        (∀ p, p ∈ xs.dedup ↔ p ∈ xs) ∧ xs.dedup.Nodup) ∧
    (∀ (ann : Ann) (xs ys : List Prim), originIsSet ann = true →
        (∀ p : Prim, p ∈ xs ↔ p ∈ ys) →
        pyEq (postProcess (some ann) (.list xs))
          (postProcess (some ann) (.list ys)) = true) ∧
    (∀ (ann : Ann) (xs : List Prim), originIsTuple ann = true →
        postProcess (some ann) (.list xs) = .tuple xs) ∧
    (∀ (b : Option BaseTy) (xs : List Prim),
        postProcess (some (.list b)) (.list xs) = .list xs) ∧
    parseOneField false "nums" none (some (.list (some .int))) false
        (some ["1", "2", "3"]) = .ok (.list [.int 1, .int 2, .int 3]) ∧
    (∃ w, parseOneField false "nums" none (some (.set (some .int))) false
          (some ["1", "2", "3"]) = .ok w ∧
        pyEq w (.set [.int 1, .int 2, .int 3]) = true) := by
  have hset : ∀ (ann : Ann) (xs : List Prim), originIsSet ann = true →
      postProcess (some ann) (.list xs) = .set xs.dedup := by
    intro ann xs h
    cases ann <;> first
      | rfl
      | simp [originIsSet] at h
  refine ⟨?_, ?_, ?_, ?_, ?_, ?_⟩
  · intro ann xs h
    exact ⟨hset ann xs h, fun p => List.mem_dedup, List.nodup_dedup xs⟩
  · intro ann xs ys h hm
    rw [hset ann xs h, hset ann ys h]
    simp only [pyEq, Bool.and_eq_true, List.all_eq_true, decide_eq_true_eq]
    constructor
    · intro p hp
      exact List.mem_dedup.mpr ((hm p).mp (List.mem_dedup.mp hp))
    · intro p hp
      exact List.mem_dedup.mpr ((hm p).mpr (List.mem_dedup.mp hp))
  · intro ann xs h
    cases ann <;> first
      | rfl
      | simp [originIsTuple] at h
  · intro b xs
    rfl
  · decide
  · exact ⟨.set [.int 1, .int 2, .int 3], by decide, by decide⟩

/-- Witness for C5 at concrete inputs: `Set[str]` post-processing on a
duplicated raw sequence, `Tuple[int, str]` post-processing, and the two
concrete example parses. -/
theorem collectionConversion_witness :
    postProcess (some (.set (some .str))) (.list [.str "a", .str "a"])
        = .set [.str "a", .str "a"].dedup ∧
    postProcess (some (.tupleFixed [.int, .str])) (.list [.int 5, .str "x"])
        = .tuple [.int 5, .str "x"] ∧
    parseOneField false "nums" none (some (.list (some .int))) false
        (some ["1", "2", "3"]) = .ok (.list [.int 1, .int 2, .int 3]) ∧
    pyEq (postProcess (some (.set (some .int))) (.list [.int 3, .int 1, .int 2]))
      (postProcess (some (.set (some .int))) (.list [.int 1, .int 2, .int 2, .int 3]))
      = true :=
  ⟨(collectionConversion.1 (.set (some .str)) [.str "a", .str "a"] (by decide)).1,
   collectionConversion.2.2.1 (.tupleFixed [.int, .str]) [.int 5, .str "x"] (by decide),
   collectionConversion.2.2.2.2.1,
   collectionConversion.2.1 (.set (some .int)) [.int 3, .int 1, .int 2]
     [.int 1, .int 2, .int 2, .int 3] (by decide)
     (by intro p; simp only [List.mem_cons, List.not_mem_nil]; tauto)⟩

theorem lookup_eq_none_iff {α : Type} (v : String) (l : List (String × α)) :
    lookupKey v l = none ↔ v ∉ l.map Prod.fst := by
  induction l with
  | nil => simp [lookupKey]
  | cons kv rest ih =>
    by_cases h : kv.1 = v
    · simp [lookupKey, h]
    · simp [lookupKey, h, ih, Ne.symm h]

theorem collect_lookup (g : String → Option PyVal) :
    ∀ (names : List String) (l : List (String × PyVal)),
      collectVals g names = some l →
      ∀ v, lookupKey v l = if v ∈ names then g v else none := by
  intro names
  induction names with
  | nil =>
    intro l h v
    simp only [collectVals, Option.some.injEq] at h
    rw [← h]
    simp [lookupKey]
  | cons n rest ih =>
    intro l h v
    cases hg : g n with
    | none => simp [collectVals, hg] at h
    | some x =>
      cases hc : collectVals g rest with
      | none => simp [collectVals, hg, hc] at h
      | some l2 =>
        simp only [collectVals, hg, hc, Option.some.injEq] at h
        rw [← h]
        by_cases hv : n = v
        · subst hv
          simp [lookupKey, hg]
        · simp only [lookupKey, hv, ite_false]
          rw [ih l2 hc v]
          by_cases hm : v ∈ rest
          · rw [if_pos hm, if_pos (List.mem_cons_of_mem n hm)]
          · rw [if_neg hm, if_neg (by
              intro hvm
              rcases List.mem_cons.mp hvm with rfl | hvm2
              · exact hv rfl
              · exact hm hvm2)]

theorem collect_keys (g : String → Option PyVal) :
    ∀ (names : List String) (l : List (String × PyVal)),
      collectVals g names = some l → l.map Prod.fst = names := by
  intro names
  induction names with
  | nil =>
    intro l h
    simp only [collectVals, Option.some.injEq] at h
    rw [← h]
    rfl
  | cons n rest ih =>
    intro l h
    cases hg : g n with
    | none => simp [collectVals, hg] at h
    | some x =>
      cases hc : collectVals g rest with
      | none => simp [collectVals, hg, hc] at h
      | some l2 =>
        simp only [collectVals, hg, hc, Option.some.injEq] at h
        rw [← h]
        simp [ih l2 hc]

theorem lookup_filterNe (k v : String) (hvk : v ≠ k) :
    ∀ (attrs : List (String × PyVal)),
      lookupKey v (attrs.filter (fun kv => kv.1 ≠ k)) = lookupKey v attrs := by
  intro attrs
  induction attrs with
  | nil => rfl
  | cons kv rest ih =>
    by_cases hk : kv.1 = k
    · have hkv : kv.1 ≠ v := by rw [hk]; exact fun hh => hvk hh.symm
      rw [List.filter_cons, if_neg (by simp [hk])]
      rw [ih]
      simp [lookupKey, hkv]
    · rw [List.filter_cons, if_pos (by simp [hk])]
      simp only [lookupKey]
      by_cases hkv : kv.1 = v
      · simp [hkv]
      · simp only [if_neg hkv]
        simpa using ih

theorem lookup_setAttr (attrs : List (String × PyVal)) (k : String) (x : PyVal)
    (v : String) :
    lookupKey v (setAttr attrs k x) = if k = v then some x else lookupKey v attrs := by
  unfold setAttr
  by_cases h : k = v
  · simp [lookupKey, h]
  · rw [if_neg h]
    simp only [lookupKey]
    rw [if_neg h]
    exact lookup_filterNe k v (fun hh => h hh.symm) attrs

theorem lookup_foldl_setAttr (v : String) :
    ∀ (l init : List (String × PyVal)),
      (l.map Prod.fst).Nodup →
      lookupKey v (l.foldl (fun acc kv => setAttr acc kv.1 kv.2) init) =
        optOr (lookupKey v l) (lookupKey v init) := by
  intro l
  induction l with
  | nil =>
    intro init h
    simp [lookupKey]
  | cons kv rest ih =>
    intro init h
    have hcons : (kv.1 :: rest.map Prod.fst).Nodup := by simpa using h
    have hnd2 : (rest.map Prod.fst).Nodup := (List.nodup_cons.mp hcons).2
    simp only [List.foldl_cons]
    rw [ih _ hnd2, lookup_setAttr]
    by_cases hv : kv.1 = v
    · have hnm : v ∉ rest.map Prod.fst := by
        rw [← hv]
        exact (List.nodup_cons.mp hcons).1
      have hnone : lookupKey v rest = none := (lookup_eq_none_iff v rest).mpr hnm
      simp [lookupKey, hv, hnone]
    · simp [lookupKey, hv]

theorem lookup_map_overwrite (k v : String) (x : PyVal) (hv : v ≠ k)
    (l : List (String × PyVal)) :
    lookupKey v (l.map (fun kv => if kv.1 = k then (k, x) else kv)) =
      lookupKey v l := by
  induction l with
  | nil => rfl
  | cons kv rest ih =>
    by_cases hk : kv.1 = k
    · have hkv : kv.1 ≠ v := by rw [hk]; exact fun hh => hv hh.symm
      simp only [List.map_cons, if_pos hk, lookupKey]
      rw [if_neg (fun hh => hv hh.symm), if_neg hkv]
      exact ih
    · simp only [List.map_cons, if_neg hk, lookupKey]
      by_cases hkv : kv.1 = v
      · simp [hkv]
      · simp only [hkv, ite_false]
        exact ih

theorem lookup_map_overwrite_self (k : String) (x : PyVal) :
    ∀ (l : List (String × PyVal)), (lookupKey k l).isSome = true →
      lookupKey k (l.map (fun kv => if kv.1 = k then (k, x) else kv)) = some x := by
  intro l
  induction l with
  | nil => intro h; simp [lookupKey] at h
  | cons kv rest ih =>
    intro h
    by_cases hk : kv.1 = k
    · subst hk
      simp [lookupKey]
    · simp only [List.map_cons, if_neg hk, lookupKey, hk, ite_false] at h ⊢
      exact ih h

theorem lookup_setKey_self (l : List (String × PyVal)) (k : String) (x : PyVal) :
    lookupKey k (setKey l k x) = some x := by
  unfold setKey
  by_cases h : (lookupKey k l).isSome
  · rw [if_pos h]
    exact lookup_map_overwrite_self k x l h
  · rw [if_neg h, lookupKey_append]
    cases hl : lookupKey k l with
    | none => simp [lookupKey]
    | some w => rw [hl] at h; simp at h

theorem lookup_setKey_ne (l : List (String × PyVal)) (k : String) (x : PyVal)
    (v : String) (hv : v ≠ k) :
    lookupKey v (setKey l k x) = lookupKey v l := by
  unfold setKey
  by_cases h : (lookupKey k l).isSome
  · rw [if_pos h]
    exact lookup_map_overwrite k v x hv l
  · rw [if_neg h, lookupKey_append]
    have hone : lookupKey v [(k, x)] = none := by
      simp only [lookupKey]
      rw [if_neg (fun hh => hv hh.symm)]
    rw [hone]
    cases lookupKey v l <;> rfl

theorem map_overwrite_keys (k : String) (x : PyVal) (l : List (String × PyVal)) :
    (l.map (fun kv => if kv.1 = k then (k, x) else kv)).map Prod.fst =
      l.map Prod.fst := by
  induction l with
  | nil => rfl
  | cons kv rest ih =>
    by_cases hk : kv.1 = k
    · simp only [List.map_cons, if_pos hk, ih]
      rw [hk]
    · simp only [List.map_cons, if_neg hk, ih]

theorem setKey_keys_nodup (l : List (String × PyVal)) (k : String) (x : PyVal)
    (h : (l.map Prod.fst).Nodup) :
    ((setKey l k x).map Prod.fst).Nodup := by
  unfold setKey
  by_cases hp : (lookupKey k l).isSome
  · rw [if_pos hp, map_overwrite_keys]
    exact h
  · rw [if_neg hp]
    have hnm : k ∉ l.map Prod.fst := by
      rw [← lookup_eq_none_iff]
      cases hl : lookupKey k l with
      | none => rfl
      | some w => rw [hl] at hp; simp at hp
    simp only [List.map_append, List.map_cons, List.map_nil]
    rw [List.nodup_append]
    exact ⟨h, List.nodup_singleton _, by
      intro a ha hb
      rw [List.mem_singleton] at hb
      exact hnm (hb ▸ ha)⟩

theorem mem_argNames_of_anns (st : TapState) (a : String) (h : a ∈ st.anns) :
    a ∈ argNames st := by
  unfold argNames
  rw [List.mem_dedup]
  exact List.mem_append_right _ h

theorem asDict_ok_collect (st : TapState) (rec : List (String × PyVal))
    (h : asDict st = .ok rec) :
    st.parsed = true ∧ collectVals (getattrTap st) (argNames st) = some rec := by
  unfold asDict at h
  by_cases hp : st.parsed = false
  · rw [if_pos hp] at h
    cases h
  · rw [if_neg hp] at h
    refine ⟨by revert hp; cases st.parsed <;> simp, ?_⟩
    cases hc : collectVals (getattrTap st) (argNames st) with
    | none => rw [hc] at h; cases h
    | some l => rw [hc] at h; simp only [Except.ok.injEq] at h; rw [h]

/-- C8 counterexample: a parsed instance whose field is literally named
`reproducibility` does not round-trip — `_log_all` clobbers the field with
the provenance block, so the re-imported value is the provenance dict, not
the original string `"x"`. -/
theorem roundTrip_cex :
    exportRecord reproState reproBlock = .ok [("reproducibility", reproBlock)] ∧
    fromDict (freshOf reproState) [("reproducibility", reproBlock)]
      = .ok (fromDictApply (freshOf reproState) [("reproducibility", reproBlock)]) ∧
    readField (fromDictApply (freshOf reproState) [("reproducibility", reproBlock)])
      "reproducibility" = .ok reproBlock ∧
    readField reproState "reproducibility" = .ok (.prim (.str "x")) ∧
    reproBlock ≠ .prim (.str "x") := by decide

/-- C8 (amended): for every successfully parsed instance, exporting the
record (`as_dict` plus the provenance block under the key
`"reproducibility"`) and importing it into a freshly-constructed, unparsed
instance of the same class succeeds and reproduces every field value
exactly — except a field literally named `reproducibility`, which the
write-only provenance block clobbers on export. -/
theorem exportImportRoundTrip (st : TapState) (repro : PyVal)
    (rec : List (String × PyVal)) (v : String)
    (hnd : st.anns.Nodup)
    (hd : asDict st = .ok rec)
    (hv : v ∈ argNames st)
    (hrep : v ≠ "reproducibility") :
    exportRecord st repro = .ok (setKey rec "reproducibility" repro) ∧
    fromDict (freshOf st) (setKey rec "reproducibility" repro)
      = .ok (fromDictApply (freshOf st) (setKey rec "reproducibility" repro)) ∧
    readField (fromDictApply (freshOf st) (setKey rec "reproducibility" repro)) v
      = readField st v := by
  obtain ⟨hp, hcol⟩ := asDict_ok_collect st rec hd
  have hkeys : rec.map Prod.fst = argNames st := collect_keys _ _ _ hcol
  have hkeysnd : (rec.map Prod.fst).Nodup := by
    rw [hkeys]
    exact List.nodup_dedup _
  have hrecnd : ((setKey rec "reproducibility" repro).map Prod.fst).Nodup :=
    setKey_keys_nodup rec _ repro hkeysnd
  have hlookup : ∀ a, a ∈ argNames st →
      lookupKey a rec = getattrTap st a := by
    intro a ha
    rw [collect_lookup _ _ _ hcol a, if_pos ha]
  have hsome : ∀ a, a ∈ argNames st → (getattrTap st a).isSome = true := by
    intro a ha
    rw [← hlookup a ha]
    cases hr : lookupKey a rec with
    | none =>
      exact absurd ((lookup_eq_none_iff a rec).mp hr) (by rw [hkeys]; exact fun hh => hh ha)
    | some w => rfl
  have hall : ∀ a ∈ requiredUnset (freshOf st),
      (lookupKey a (setKey rec "reproducibility" repro)).isSome = true := by
    intro a ha
    have hanns : a ∈ st.anns := (List.mem_filter.mp ha).1
    by_cases harep : a = "reproducibility"
    · rw [harep, lookup_setKey_self]
      rfl
    · rw [lookup_setKey_ne rec _ repro a harep]
      rw [hlookup a (mem_argNames_of_anns st a hanns)]
      exact hsome a (mem_argNames_of_anns st a hanns)
  have himp := fromDict_ok_of_covered (freshOf st)
    (setKey rec "reproducibility" repro) hnd hall
  refine ⟨by unfold exportRecord; rw [hd]; rfl, himp, ?_⟩
  have hattrs : (fromDictApply (freshOf st) (setKey rec "reproducibility" repro)).attrs =
      (setKey rec "reproducibility" repro).foldl
        (fun acc kv => setAttr acc kv.1 kv.2) [] := rfl
  obtain ⟨x, hx⟩ := Option.isSome_iff_exists.mp (hsome v hv)
  have hgot : getattrTap (fromDictApply (freshOf st) (setKey rec "reproducibility" repro)) v
      = some x := by
    unfold getattrTap
    rw [hattrs, lookup_foldl_setAttr v _ _ hrecnd,
      lookup_setKey_ne rec _ repro v hrep, hlookup v hv, hx]
    rfl
  unfold readField
  rw [hgot]
  unfold getattrTap at hx ⊢
  rw [hx]

/-- Witness for C8 (amended): the concrete parsed instance round-trips its
field `x`. -/
theorem exportImportRoundTrip_witness :
    exportRecord parsedSimple reproBlock
      = .ok (setKey [("x", .prim (.int 7))] "reproducibility" reproBlock) ∧
    fromDict (freshOf parsedSimple) (setKey [("x", .prim (.int 7))] "reproducibility" reproBlock)
      = .ok (fromDictApply (freshOf parsedSimple)
          (setKey [("x", .prim (.int 7))] "reproducibility" reproBlock)) ∧
    readField (fromDictApply (freshOf parsedSimple)
        (setKey [("x", .prim (.int 7))] "reproducibility" reproBlock)) "x"
      = readField parsedSimple "x" :=
  exportImportRoundTrip parsedSimple reproBlock [("x", .prim (.int 7))] "x"
    (by decide) (by decide) (by decide) (by decide)

end Tap
